import Mathlib

/-!
# A formal model of the convnetgo neural-network engine

This file embeds the parts of the convnetgo sources that the verified
properties talk about: the `Vol` tensor type, the softmax loss layer, the
trainer's mini-batch update, max pooling's backward pass and constructor,
the maxout nonlinearity, the dropout layer, local response normalization's
constructor, and the JSON deserialization of pooling and dropout layers.

Modelling conventions:
* Go `float64` values are modelled as rationals (`ℚ`); the transcendental
  library calls (`math.Exp`, `math.Log`, `math.Sqrt`) are taken as explicit
  function parameters of the definitions that use them.
* Go `int` values that can be negative in the source (layer-definition
  fields, pooling switch coordinates) are modelled as `ℤ`; Go's `/` and `%`
  on `int` truncate toward zero, which is `Int.tdiv` / `Int.tmod`.
* Slices of `float64` that are only ever indexed in bounds are modelled as
  total functions `ℕ → ℚ` together with the shape fields that determine the
  slice length; slices whose length is itself of interest (switch tables,
  dropout decisions) are modelled as lists.
* A Go `panic` / nil-pointer dereference / index-out-of-range is modelled by
  returning `none` from an `Option`-valued function.
-/

namespace Convnet

/-- `Vol` (vol.go): a 3-D volume with shape `(sx, sy, depth)` and two
parallel buffers `W` (values) and `Dw` (gradients), both of length
`sx*sy*depth`, addressed by the flat index below. -/
structure Vol where
  sx : ℕ
  sy : ℕ
  depth : ℕ
  w : ℕ → ℚ
  dw : ℕ → ℚ

/-- The length of the `W` and `Dw` buffers: `sx*sy*depth`. -/
def Vol.size (v : Vol) : ℕ := v.sx * v.sy * v.depth

/-- `Vol.index`: `((v.Sx*y)+x)*v.Depth + d`. -/
def Vol.idx (v : Vol) (x y d : ℕ) : ℕ := (v.sx * y + x) * v.depth + d

/-! ## Softmax loss layer (layers-loss.go) -/

/-- `SoftmaxLayer`: output depth, the recorded input tensor (a Go pointer,
`nil` modelled as `none`), the output tensor, and the saved normalized
exponentials `es`. -/
structure SoftmaxLayer where
  outDepth : ℕ
  inAct : Option Vol
  outAct : Option Vol
  es : ℕ → ℚ

/-- A freshly constructed `&SoftmaxLayer{}` after `fromDef` set `outDepth`:
`inAct` and `outAct` are nil, `es` is nil (reads modelled as 0). -/
def freshSoftmax (d : ℕ) : SoftmaxLayer :=
  { outDepth := d, inAct := none, outAct := none, es := fun _ => 0 }

/-- The `amax` loop of `SoftmaxLayer.Forward`: start from `as[0]` and scan
`i = 1 .. d-1`, keeping the largest value seen. -/
def softmaxAmax (f : ℕ → ℚ) (d : ℕ) : ℚ :=
  (List.range' 1 (d - 1)).foldl (fun amax i => if f i > amax then f i else amax) (f 0)

/-- `SoftmaxLayer.Forward`: subtract the maximum activation, exponentiate
(`expf` stands for `math.Exp`), normalize by the sum, store the result in a
fresh `1×1×outDepth` output volume and in `l.es`.  Note that, unlike every
other layer's `Forward`, the source does not assign `l.inAct`. -/
def softmaxForward (expf : ℚ → ℚ) (l : SoftmaxLayer) (v : Vol) : SoftmaxLayer × Vol :=
  let d := l.outDepth
  let amax := softmaxAmax v.w d
  let es0 : ℕ → ℚ := fun i => expf (v.w i - amax)
  let esum := ((List.range d).map es0).sum
  let esn : ℕ → ℚ := fun i => if i < d then es0 i / esum else 0
  let a : Vol := ⟨1, 1, d, esn, fun _ => 0⟩
  ({ l with es := esn, outAct := some a }, a)

/-- `SoftmaxLayer.BackwardLoss`: reads `x := l.inAct` (nil dereference when
`inAct` was never recorded, modelled as `none`), replaces `x.Dw` by a zeroed
buffer, writes `es[i] - 1{i = y}` at each class `i < outDepth`, and returns
`-log(es[y])` (`logf` stands for `math.Log`). -/
def softmaxBackwardLoss (logf : ℚ → ℚ) (l : SoftmaxLayer) (y : ℕ) : Option (Vol × ℚ) :=
  match l.inAct with
  | none => none
  | some x =>
      let dwn : ℕ → ℚ :=
        fun i => if i < l.outDepth then l.es i - (if i = y then 1 else 0) else 0
      some ({ x with dw := dwn }, -logf (l.es y))

/-- Concrete 2-class input for exercising the softmax layer. -/
def volC1 : Vol := ⟨1, 1, 2, (fun i => if i = 0 then 1 else 2), fun _ => 0⟩

/-- Concrete 3-class input for exercising the softmax layer. -/
def volC3 : Vol := ⟨1, 1, 3, (fun i => if i = 0 then 2 else 1), fun _ => 0⟩

/-! ## Trainer (trainers.go) -/

/-- `TrainerMethod`. -/
inductive TrainMethod where
  | sgd
  | adam
  | adagrad
  | adadelta
  | windowgrad
  | nesterov
deriving DecidableEq

/-- One entry of `Net.ParamsAndGrads()`: a parameter buffer, its gradient
buffer, and the per-group decay multipliers. -/
structure ParamsAndGrads where
  params : List ℚ
  grads : List ℚ
  l1DecayMul : ℚ
  l2DecayMul : ℚ

/-- The empty `ParamsAndGrads`, used as a `getD` default. -/
def pgDefault : ParamsAndGrads := ⟨[], [], 0, 0⟩

/-- `Trainer`: options, iteration counter `k`, and the lazily allocated
accumulator lists `gsum`/`xsum`. -/
structure Trainer where
  learningRate : ℚ
  l1Decay : ℚ
  l2Decay : ℚ
  batchSize : ℕ
  method : TrainMethod
  momentum : ℚ
  ro : ℚ
  eps : ℚ
  beta1 : ℚ
  beta2 : ℚ
  k : ℕ
  gsum : List (List ℚ)
  xsum : List (List ℚ)

/-- `TrainingResult`. -/
structure TrainingResult where
  loss : ℚ
  costLoss : ℚ
  l1DecayLoss : ℚ
  l2DecayLoss : ℚ

/-- `math.Copysign(1, x)`: `ℚ` has no negative zero, so this is just the
sign of `x` with `copysign1 0 = 1` (Go's `+0`). -/
def copysign1 (x : ℚ) : ℚ := if x < 0 then -1 else 1

/-- The per-element body of the update loop in `Trainer.Train` for one
parameter element: given the decayed hyperparameters, the parameter value
`pj`, raw gradient `gj` and accumulators `gsj`/`xsj`, produce the new
parameter value and the new accumulator values.  `kNew` is the already
incremented iteration counter `t.k`, and `sqrtf` stands for `math.Sqrt`. -/
def trainStep (sqrtf : ℚ → ℚ) (t : Trainer) (kNew : ℕ) (l1Decay l2Decay : ℚ)
    (pj gj gsj xsj : ℚ) : ℚ × ℚ × ℚ :=
  let l1grad := l1Decay * copysign1 pj
  let l2grad := l2Decay * pj
  let gij := (l2grad + l1grad + gj) / (t.batchSize : ℚ)
  match t.method with
  | .adam =>
      let gs := gsj * t.beta1 + (1 - t.beta1) * gij
      let xs := xsj * t.beta2 + (1 - t.beta2) * gij * gij
      let biasCorr1 := gs * (1 - t.beta1 ^ kNew)
      let biasCorr2 := xs * (1 - t.beta2 ^ kNew)
      let dx := -t.learningRate * biasCorr1 / (sqrtf biasCorr2 + t.eps)
      (pj + dx, gs, xs)
  | .adagrad =>
      let gs := gsj + gij * gij
      let dx := -t.learningRate / sqrtf (gs + t.eps) * gij
      (pj + dx, gs, xsj)
  | .windowgrad =>
      let gs := t.ro * gsj + (1 - t.ro) * gij * gij
      let dx := -t.learningRate / sqrtf (gs + t.eps) * gij
      (pj + dx, gs, xsj)
  | .adadelta =>
      let gs := t.ro * gsj + (1 - t.ro) * gij * gij
      let dx := -sqrtf ((xsj + t.eps) / (gs + t.eps)) * gij
      let xs := t.ro * xsj + (1 - t.ro) * dx * dx
      (pj + dx, gs, xs)
  | .nesterov =>
      let dx0 := gsj
      let gs := gsj * t.momentum + t.learningRate * gij
      let dx := t.momentum * dx0 - (1 + t.momentum) * gs
      (pj + dx, gs, xsj)
  | .sgd =>
      if t.momentum > 0 then
        let dx := t.momentum * gsj - t.learningRate * gij
        (pj + dx, dx, xsj)
      else
        (pj + -t.learningRate * gij, gsj, xsj)

/-- Result of the update loop over one parameter buffer. -/
structure BufferUpdate where
  pg : ParamsAndGrads
  gsum : List ℚ
  xsum : List ℚ
  l1Loss : ℚ
  l2Loss : ℚ

/-- The empty `BufferUpdate`, used as a `getD` default. -/
def buDefault : BufferUpdate := ⟨pgDefault, [], [], 0, 0⟩

/-- The `for j := range p` loop of `Trainer.Train` over one
`ParamsAndGrads` entry: update every parameter element once via
`trainStep`, zero the raw gradient, write back the accumulators, and
accumulate the weight-decay losses. -/
def trainUpdateBuffer (sqrtf : ℚ → ℚ) (t : Trainer) (kNew : ℕ)
    (pg : ParamsAndGrads) (gs xs : List ℚ) : BufferUpdate :=
  let l2d := t.l2Decay * pg.l2DecayMul
  let l1d := t.l1Decay * pg.l1DecayMul
  let p := pg.params
  let g := pg.grads
  let stepAt : ℕ → ℚ → ℚ × ℚ × ℚ := fun j pj =>
    trainStep sqrtf t kNew l1d l2d pj (g.getD j 0) (gs.getD j 0) (xs.getD j 0)
  { pg := { pg with
      params := p.mapIdx (fun j pj => (stepAt j pj).1),
      grads := g.mapIdx (fun j gj => if j < p.length then 0 else gj) },
    gsum := gs.mapIdx (fun j gsj => if j < p.length then (stepAt j (p.getD j 0)).2.1 else gsj),
    xsum := xs.mapIdx (fun j xsj => if j < p.length then (stepAt j (p.getD j 0)).2.2 else xsj),
    l1Loss := (p.map (fun pj => l1d * |pj|)).sum,
    l2Loss := (p.map (fun pj => l2d * pj * pj / 2)).sum }

/-- The lazy accumulator allocation at the top of the update branch of
`Trainer.Train`: on the first boundary call, methods other than vanilla SGD
get zero-filled `gsum` buffers (and `xsum` buffers for Adam/Adadelta, `nil`
otherwise); vanilla SGD gets lists of `nil` slices. -/
def trainEnsureAccum (t : Trainer) (pglist : List ParamsAndGrads) :
    List (List ℚ) × List (List ℚ) :=
  if t.gsum.isEmpty ∧ (t.method ≠ .sgd ∨ t.momentum > 0) then
    (pglist.map (fun pg => List.replicate pg.params.length 0),
     pglist.map (fun pg =>
       if t.method = .adam ∨ t.method = .adadelta then
         List.replicate pg.params.length 0
       else []))
  else if t.gsum.isEmpty then
    (List.replicate pglist.length [], List.replicate pglist.length [])
  else
    (t.gsum, t.xsum)

/-- The effect of `Net.Forward`/`Net.Backward` on the parameter lists:
layer backward passes only *accumulate* into parameter gradient buffers
(e.g. `FullyConnLayer.Backward` does `f.Dw[d] += ...` and
`l.biases.Dw[i] += chainGrad`) and never write parameter values, so the
backward pass is modelled as adding a per-buffer increment `delta` to the
gradient buffers. -/
def accumGrads (pglist : List ParamsAndGrads) (delta : List (List ℚ)) :
    List ParamsAndGrads :=
  pglist.mapIdx (fun i pg =>
    { pg with grads := pg.grads.mapIdx (fun j gj => gj + (delta.getD i []).getD j 0) })

/-- `Trainer.Train`: run forward/backward (modelled by the gradient
increments `delta` and the returned `costLoss`), increment `k`, and when the
new counter is a multiple of `BatchSize`, allocate accumulators if needed
and apply the update loop to every parameter buffer; otherwise only the
gradient accumulation has happened.  Returns the new trainer state, the new
parameter list, and the `TrainingResult`. -/
def train (sqrtf : ℚ → ℚ) (t : Trainer) (pgIn : List ParamsAndGrads)
    (delta : List (List ℚ)) (costLoss : ℚ) :
    Trainer × List ParamsAndGrads × TrainingResult :=
  let pglist := accumGrads pgIn delta
  let kNew := t.k + 1
  if kNew % t.batchSize = 0 then
    let acc := trainEnsureAccum t pglist
    let upd := pglist.mapIdx (fun i pg =>
      trainUpdateBuffer sqrtf t kNew pg (acc.1.getD i []) (acc.2.getD i []))
    let l1Loss := (upd.map BufferUpdate.l1Loss).sum
    let l2Loss := (upd.map BufferUpdate.l2Loss).sum
    ({ t with k := kNew, gsum := upd.map BufferUpdate.gsum, xsum := upd.map BufferUpdate.xsum },
     upd.map BufferUpdate.pg,
     ⟨costLoss + l1Loss + l2Loss, costLoss, l1Loss, l2Loss⟩)
  else
    ({ t with k := kNew }, pglist, ⟨costLoss, costLoss, 0, 0⟩)

/-- A concrete trainer: vanilla SGD, batch size 2, fresh counter. -/
def trainerC2 : Trainer :=
  { learningRate := 1/100, l1Decay := 0, l2Decay := 0, batchSize := 2,
    method := .sgd, momentum := 0, ro := 0, eps := 0, beta1 := 0, beta2 := 0,
    k := 0, gsum := [], xsum := [] }

/-- A concrete one-buffer parameter list. -/
def pgInC2 : List ParamsAndGrads := [⟨[1], [0], 0, 0⟩]

/-- A concrete gradient increment for `pgInC2`. -/
def deltaC2 : List (List ℚ) := [[2]]

/-! ## Layer definitions (layers.go) -/

/-- `LayerDef`: the configuration-record fields consumed by the layers
modelled here (pooling, local response normalization, maxout).  Go `int`
fields are `ℤ`, `float64` fields are `ℚ`; the `...Zero` booleans mirror the
source's explicit-zero markers used when applying defaults. -/
structure LayerDef where
  sx : ℤ
  sy : ℤ
  syZero : Bool
  pad : ℤ
  stride : ℤ
  strideZero : Bool
  groupSize : ℤ
  groupSizeZero : Bool
  inSx : ℤ
  inSy : ℤ
  inDepth : ℤ
  n : ℤ
  k : ℚ
  alpha : ℚ
  beta : ℚ

/-- An all-zero `LayerDef`, the base for concrete examples. -/
def layerDef0 : LayerDef :=
  { sx := 0, sy := 0, syZero := false, pad := 0, stride := 0, strideZero := false,
    groupSize := 0, groupSizeZero := false, inSx := 0, inSy := 0, inDepth := 0,
    n := 0, k := 0, alpha := 0, beta := 0 }

/-! ## Max pooling (layers-pool.go) -/

/-- `PoolLayer`: filter size, shapes, stride, pad, and the switch tables
recording where each output cell's maximum came from. -/
structure PoolLayer where
  sx : ℤ
  sy : ℤ
  inDepth : ℤ
  inSx : ℤ
  inSy : ℤ
  outSx : ℤ
  outSy : ℤ
  stride : ℤ
  pad : ℤ
  switchx : List ℤ
  switchy : List ℤ

/-- `PoolLayer.fromDef`: `sy` defaults to `sx`, `stride` defaults to 2,
`out_size = (in_size + pad*2 - filter_size)/stride + 1` with Go's
truncating integer division, and the switch tables are allocated with
length `outSx*outSy*inDepth`.  There are no validity checks: the size
formula simply trims when the stride does not divide evenly. -/
def poolFromDef (dd : LayerDef) : PoolLayer :=
  let sy := if dd.sy = 0 ∧ dd.syZero = false then dd.sx else dd.sy
  let stride := if dd.stride = 0 ∧ dd.strideZero = false then 2 else dd.stride
  let outSx := Int.tdiv (dd.inSx + dd.pad * 2 - dd.sx) stride + 1
  let outSy := Int.tdiv (dd.inSy + dd.pad * 2 - sy) stride + 1
  { sx := dd.sx, sy := sy, inDepth := dd.inDepth, inSx := dd.inSx, inSy := dd.inSy,
    outSx := outSx, outSy := outSy, stride := stride, pad := dd.pad,
    switchx := List.replicate (outSx * outSy * dd.inDepth).toNat 0,
    switchy := List.replicate (outSx * outSy * dd.inDepth).toNat 0 }

/-- Add `q` to a gradient buffer at flat index `j` (`Vol.AddGrad`). -/
def pointAdd (f : ℕ → ℚ) (j : ℕ) (q : ℚ) : ℕ → ℚ :=
  fun i => if i = j then f i + q else f i

/-- The iteration space of the loops in `PoolLayer.Backward`: `d` over the
input depth, then `ax` over `outSx`, then `ay` over `outSy`, in source
order. -/
def poolTriples (l : PoolLayer) : List (ℕ × ℕ × ℕ) :=
  (List.range l.inDepth.toNat).flatMap (fun d =>
    (List.range l.outSx.toNat).flatMap (fun ax =>
      (List.range l.outSy.toNat).map (fun ay => (d, ax, ay))))

/-- The value of the running switch counter `n` at iteration `(d, ax, ay)`
of `PoolLayer.Backward`'s loops: `n` is incremented once per innermost
iteration, so it equals `(d*outSx + ax)*outSy + ay`. -/
def poolSwitchN (l : PoolLayer) (d ax ay : ℕ) : ℕ :=
  (d * l.outSx.toNat + ax) * l.outSy.toNat + ay

/-- `PoolLayer.Backward`: zero the input tensor's gradient buffer, then for
every output position `(ax, ay)` in every depth `d`, add the output
gradient `outAct.GetGrad(ax, ay, d)` to the input gradient at the recorded
switch coordinate `(switchx[n], switchy[n], d)`.  The arguments `v` and
`out` are the tensors held in `l.inAct` and `l.outAct`. -/
def poolBackward (l : PoolLayer) (v out : Vol) : Vol :=
  let step : (ℕ → ℚ) → ℕ × ℕ × ℕ → ℕ → ℚ := fun dwAcc t =>
    let n := poolSwitchN l t.1 t.2.1 t.2.2
    pointAdd dwAcc
      (v.idx (l.switchx.getD n 0).toNat (l.switchy.getD n 0).toNat t.1)
      (out.dw (out.idx t.2.1 t.2.2 t.1))
  { v with dw := (poolTriples l).foldl step (fun _ => 0) }

/-- A concrete 2×2 pooling layer over a 2×2×1 input with recorded switch
coordinate `(1, 0)` for its single output cell. -/
def poolLayerC4 : PoolLayer :=
  { sx := 2, sy := 2, inDepth := 1, inSx := 2, inSy := 2, outSx := 1, outSy := 1,
    stride := 2, pad := 0, switchx := [1], switchy := [0] }

/-- The 2×2×1 input tensor for `poolLayerC4`. -/
def volInC4 : Vol := ⟨2, 2, 1, (fun _ => 0), fun _ => 0⟩

/-- The 1×1×1 output tensor for `poolLayerC4`, with gradient 7 seeded. -/
def volOutC4 : Vol := ⟨1, 1, 1, (fun _ => 0), fun _ => 7⟩

/-! ## Local response normalization (layers-normalization.go) -/

/-- `LocalResponseNormalizationLayer`: hyperparameters and output shape. -/
structure LRNLayer where
  k : ℚ
  alpha : ℚ
  beta : ℚ
  n : ℤ
  outSx : ℤ
  outSy : ℤ
  outDepth : ℤ

/-- `LocalResponseNormalizationLayer.fromDef`: copies the hyperparameters
and the input shape, then panics (`none`) when `l.n % 2 == 0`, i.e. when
the window size is even (Go's `%` on `int` is `Int.tmod`). -/
def lrnFromDef (dd : LayerDef) : Option LRNLayer :=
  let l : LRNLayer :=
    { k := dd.k, alpha := dd.alpha, beta := dd.beta, n := dd.n,
      outSx := dd.inSx, outSy := dd.inSy, outDepth := dd.inDepth }
  if Int.tmod l.n 2 = 0 then none else some l

/-! ## Maxout (layers-nonlinearities.go) -/

/-- `MaxoutLayer`: group size, output shape, the switch table recording the
winning input index of each group, and the recorded input/output
tensors. -/
structure MaxoutLayer where
  groupSize : ℤ
  outSx : ℤ
  outSy : ℤ
  outDepth : ℤ
  switches : List ℤ
  inAct : Option Vol
  outAct : Option Vol

/-- `MaxoutLayer.fromDef`: group size defaults to 2, output depth is
`inDepth / groupSize` (Go's truncating division, i.e. floor for the
non-negative sizes that occur), and the switch table is allocated with
length `outSx*outSy*outDepth`. -/
def maxoutFromDef (dd : LayerDef) : MaxoutLayer :=
  let g := if dd.groupSize = 0 ∧ dd.groupSizeZero = false then 2 else dd.groupSize
  let outDepth := Int.tdiv dd.inDepth g
  { groupSize := g, outSx := dd.inSx, outSy := dd.inSy, outDepth := outDepth,
    switches := List.replicate (dd.inSx * dd.inSy * outDepth).toNat 0,
    inAct := none, outAct := none }

/-- The scan over one maxout group starting at flat offset `base`: return
the maximum of `f base, f (base+1), ..., f (base+g-1)` together with the
winning offset `ai` within the group, scanning `j = 1 .. g-1` as in the
source (first-encountered maximum wins). -/
def maxoutPick (f : ℕ → ℚ) (base g : ℕ) : ℚ × ℕ :=
  (List.range' 1 (g - 1)).foldl
    (fun p j => if f (base + j) > p.1 then (f (base + j), j) else p)
    (f base, 0)

/-- `MaxoutLayer.Forward`: for each output position take the maximum of its
`groupSize`-wide block of input channels and record the winning flat offset
(1×1 fast path) or channel index (general path) in `switches`.  The general
path's switch counter runs over `x`, then `y`, then the output channel, so
it equals `(x*v.sy + y)*outDepth + i`. -/
def maxoutForward (l : MaxoutLayer) (v : Vol) : MaxoutLayer × Vol :=
  let N := l.outDepth.toNat
  let g := l.groupSize.toNat
  if l.outSx = 1 ∧ l.outSy = 1 then
    let v2 : Vol :=
      ⟨l.outSx.toNat, l.outSy.toNat, N,
        (fun i => if i < N then (maxoutPick v.w (i * g) g).1 else 0), fun _ => 0⟩
    ({ l with
        switches := (List.range N).map (fun i => (i * g + (maxoutPick v.w (i * g) g).2 : ℤ)),
        inAct := some v, outAct := some v2 }, v2)
  else
    let pickAt : ℕ → ℕ → ℕ → ℚ × ℕ := fun x y i =>
      (List.range' 1 (g - 1)).foldl
        (fun p j => if v.w (v.idx x y (i * g + j)) > p.1 then (v.w (v.idx x y (i * g + j)), j) else p)
        (v.w (v.idx x y (i * g)), 0)
    let v2 : Vol :=
      ⟨l.outSx.toNat, l.outSy.toNat, N,
        (fun kk =>
          if kk < l.outSx.toNat * l.outSy.toNat * N then
            let i := kk % N
            let r := kk / N
            (pickAt (r % l.outSx.toNat) (r / l.outSx.toNat) i).1
          else 0),
        fun _ => 0⟩
    ({ l with
        switches := (List.range v.sx).flatMap (fun x =>
          (List.range v.sy).flatMap (fun y =>
            (List.range N).map (fun i => (i * g + (pickAt x y i).2 : ℤ)))),
        inAct := some v, outAct := some v2 }, v2)

/-- `MaxoutLayer.Backward`: zero the input gradient, then route each output
gradient through the recorded switch.  The 1×1 fast path iterates
`for i := range v.Dw` — i.e. over the *input* length — while indexing
`v2.Dw[i]` and `l.switches[i]`, so every access is guarded by the
corresponding slice length (a failed guard is Go's index-out-of-range
panic, modelled as `none`).  The general path iterates over the output
positions and writes `v.SetGrad(x, y, switches[n], chainGrad)`. -/
def maxoutBackward (l : MaxoutLayer) : Option Vol :=
  match l.inAct, l.outAct with
  | some v, some v2 =>
    if l.outSx = 1 ∧ l.outSy = 1 then
      if (List.range v.size).all (fun i =>
            decide (i < v2.size) && decide (i < l.switches.length) &&
            decide (0 ≤ l.switches.getD i 0) &&
            decide ((l.switches.getD i 0).toNat < v.size)) then
        let dwn : ℕ → ℚ := (List.range v.size).foldl
          (fun dwAcc i => fun jj =>
            if jj = (l.switches.getD i 0).toNat then v2.dw i else dwAcc jj)
          (fun _ => 0)
        some { v with dw := dwn }
      else none
    else
      let N := l.outDepth.toNat
      let cnt : ℕ → ℕ → ℕ → ℕ := fun x y i => (x * v2.sy + y) * N + i
      if (List.range v2.sx).all (fun x => (List.range v2.sy).all (fun y =>
            (List.range N).all (fun i =>
              decide (v2.idx x y i < v2.size) &&
              decide (cnt x y i < l.switches.length) &&
              decide (0 ≤ l.switches.getD (cnt x y i) 0) &&
              decide (v.idx x y (l.switches.getD (cnt x y i) 0).toNat < v.size)))) then
        let dwn : ℕ → ℚ :=
          ((List.range v2.sx).flatMap (fun x =>
            (List.range v2.sy).flatMap (fun y =>
              (List.range N).map (fun i => (x, y, i))))).foldl
            (fun dwAcc t => fun jj =>
              if jj = v.idx t.1 t.2.1 (l.switches.getD (cnt t.1 t.2.1 t.2.2) 0).toNat
              then v2.dw (v2.idx t.1 t.2.1 t.2.2) else dwAcc jj)
            (fun _ => 0)
        some { v with dw := dwn }
      else none
  | _, _ => none

/-- The 2-channel input `[3, 5]` used to exercise the maxout layer. -/
def volC5 : Vol := ⟨1, 1, 2, (fun i => if i = 0 then 3 else 5), fun _ => 0⟩

/-- A maxout layer built from a definition with a 1×1×2 input and the
default group size 2. -/
def maxoutLayerC5 : MaxoutLayer :=
  maxoutFromDef { layerDef0 with inSx := 1, inSy := 1, inDepth := 2 }

/-- The maxout layer after `Forward(volC5)` and after the downstream layer
has seeded the output tensor's gradient buffer (with 1s). -/
def maxoutSeededC5 : MaxoutLayer :=
  let l1 := (maxoutForward maxoutLayerC5 volC5).1
  { l1 with outAct := l1.outAct.map (fun o => { o with dw := fun _ => 1 }) }

/-! ## Dropout (layers-dropout.go) -/

/-- The trainer's random source (`math/rand.Rand`), modelled as a
predetermined stream of `Float64()` draws with a cursor. -/
structure RNGStream where
  stream : ℕ → ℚ
  pos : ℕ

/-- `DropoutLayer`: output shape, drop probability, the cached per-element
drop decisions, and the random source. -/
structure DropoutLayer where
  outSx : ℕ
  outSy : ℕ
  outDepth : ℕ
  dropProb : ℚ
  dropped : List Bool
  rng : RNGStream
  inAct : Option Vol
  outAct : Option Vol

/-- `DropoutLayer.Forward`: record `inAct`, clone the input; in training
mode draw one `Float64()` per element, zero the dropped elements and cache
the decisions in `l.dropped` (writing `l.dropped[i]` out of range is a
panic, modelled as `none`); in prediction mode multiply every element by
`l.dropProb` deterministically, consuming no draws. -/
def dropoutForward (l : DropoutLayer) (v : Vol) (isTraining : Bool) :
    Option (DropoutLayer × Vol) :=
  if isTraining then
    if v.size ≤ l.dropped.length then
      let dec : ℕ → Bool := fun i => decide (l.rng.stream (l.rng.pos + i) < l.dropProb)
      let v2 : Vol :=
        { v with w := fun i => if i < v.size ∧ dec i = true then 0 else v.w i,
                 dw := fun _ => 0 }
      let dropped2 := l.dropped.mapIdx (fun i b => if i < v.size then dec i else b)
      let rng2 : RNGStream := { l.rng with pos := l.rng.pos + v.size }
      let l2 : DropoutLayer :=
        { l with inAct := some v, outAct := some v2, dropped := dropped2, rng := rng2 }
      some (l2, v2)
    else none
  else
    let v2 : Vol :=
      { v with w := fun i => if i < v.size then v.w i * l.dropProb else v.w i,
               dw := fun _ => 0 }
    some ({ l with inAct := some v, outAct := some v2 }, v2)

/-- A concrete 1×1×2 dropout layer with drop probability 1/2. -/
def dropoutLayerC7 : DropoutLayer :=
  { outSx := 1, outSy := 1, outDepth := 2, dropProb := 1/2,
    dropped := [false, false], rng := ⟨fun _ => 0, 0⟩, inAct := none, outAct := none }

/-! ## Deserialization (UnmarshalJSON) -/

/-- The fields of a serialized pooling layer. -/
structure PoolJSONData where
  sx : ℤ
  sy : ℤ
  stride : ℤ
  inDepth : ℤ
  outDepth : ℤ
  outSx : ℤ
  outSy : ℤ
  pad : ℤ

/-- `PoolLayer.UnmarshalJSON` applied to receiver `l`: restore the
persisted fields and re-allocate both switch tables with length
`outSx*outSy*inDepth` ("need to re-init these appropriately").  `inSx` and
`inSy` are not persisted and keep the receiver's values. -/
def poolUnmarshal (l : PoolLayer) (data : PoolJSONData) : PoolLayer :=
  { l with outSx := data.outSx, outSy := data.outSy, sx := data.sx, sy := data.sy,
           stride := data.stride, inDepth := data.inDepth, pad := data.pad,
           switchx := List.replicate (data.outSx * data.outSy * data.inDepth).toNat 0,
           switchy := List.replicate (data.outSx * data.outSy * data.inDepth).toNat 0 }

/-- The fields of a serialized dropout layer. -/
structure DropoutJSONData where
  outDepth : ℕ
  outSx : ℕ
  outSy : ℕ
  dropProb : ℚ

/-- `DropoutLayer.UnmarshalJSON` applied to receiver `l`: restore the
persisted fields.  Unlike the pooling layer, the `dropped` buffer (and the
random source) are left exactly as they were on the receiver. -/
def dropoutUnmarshal (l : DropoutLayer) (data : DropoutJSONData) : DropoutLayer :=
  { l with outDepth := data.outDepth, outSx := data.outSx, outSy := data.outSy,
           dropProb := data.dropProb }

/-- The fresh `&PoolLayer{}` receiver used by `Net.UnmarshalJSON`. -/
def emptyPoolLayer : PoolLayer :=
  { sx := 0, sy := 0, inDepth := 0, inSx := 0, inSy := 0, outSx := 0, outSy := 0,
    stride := 0, pad := 0, switchx := [], switchy := [] }

/-- The fresh `&DropoutLayer{}` receiver used by `Net.UnmarshalJSON`: the
`dropped` slice is nil (empty). -/
def emptyDropoutLayer : DropoutLayer :=
  { outSx := 0, outSy := 0, outDepth := 0, dropProb := 0, dropped := [],
    rng := ⟨fun _ => 0, 0⟩, inAct := none, outAct := none }

/-- Serialized dropout-layer data for a 1×1×2 layer. -/
def dropoutDataC9 : DropoutJSONData := ⟨2, 1, 1, 1/2⟩

/-- Serialized pooling-layer data: 2×2 filter, stride 2, depth 3, 4×4 output. -/
def poolDataC9 : PoolJSONData := ⟨2, 2, 2, 3, 3, 4, 4, 0⟩

/-- A recorded-input tensor for exercising `BackwardLoss`. -/
def volIn3 : Vol := ⟨1, 1, 3, (fun _ => 1), fun _ => 0⟩

/-- A 3-class softmax layer whose `inAct` field holds a tensor. -/
def softmaxLayerRec3 : SoftmaxLayer :=
  { outDepth := 3, inAct := some volIn3, outAct := none, es := fun _ => 0 }

/-!
## Verified properties
-/

/-- The `amax` scan of `SoftmaxLayer.Forward` computes an upper bound of
`f 0 .. f n` that is attained. -/
theorem amax_loop_spec (f : ℕ → ℚ) (n : ℕ) :
    (∀ i ≤ n, f i ≤ (List.range' 1 n).foldl (fun a j => if f j > a then f j else a) (f 0)) ∧
    (∃ j, j ≤ n ∧ (List.range' 1 n).foldl (fun a j => if f j > a then f j else a) (f 0) = f j) := by
  induction n with
  | zero =>
      refine ⟨fun i hi => ?_, 0, le_refl 0, by simp⟩
      have h0 : i = 0 := by omega
      subst h0
      simp
  | succ n ih =>
      obtain ⟨hle, j, hj, hval⟩ := ih
      rw [List.range'_concat, List.foldl_append, List.foldl_cons, List.foldl_nil]
      simp only [one_mul]
      have h1n : 1 + n = n + 1 := Nat.add_comm 1 n
      rw [h1n]
      by_cases hgt :
          f (n + 1) > (List.range' 1 n).foldl (fun a j => if f j > a then f j else a) (f 0)
      · rw [if_pos hgt]
        refine ⟨fun i hi => ?_, n + 1, le_refl _, rfl⟩
        rcases Nat.lt_or_ge i (n + 1) with hlt | hge
        · exact (hle i (by omega)).trans hgt.le
        · have hieq : i = n + 1 := by omega
          subst hieq
          exact le_refl _
      · rw [if_neg hgt]
        push_neg at hgt
        refine ⟨fun i hi => ?_, j, by omega, hval⟩
        rcases Nat.lt_or_ge i (n + 1) with hlt | hge
        · exact hle i (by omega)
        · have hieq : i = n + 1 := by omega
          subst hieq
          exact hgt

/-- `softmaxAmax f d` is the maximum of `f 0 .. f (d-1)`. -/
theorem softmaxAmax_spec (f : ℕ → ℚ) (d : ℕ) (hd : 0 < d) :
    (∀ i < d, f i ≤ softmaxAmax f d) ∧ (∃ j < d, softmaxAmax f d = f j) := by
  obtain ⟨n, rfl⟩ : ∃ n, d = n + 1 := ⟨d - 1, by omega⟩
  have h := amax_loop_spec f n
  unfold softmaxAmax
  simp only [Nat.add_sub_cancel]
  refine ⟨fun i hi => h.1 i (by omega), ?_⟩
  obtain ⟨j, hj, hv⟩ := h.2
  exact ⟨j, by omega, hv⟩

/-- A sum over `List.range` is the corresponding `Finset.range` sum. -/
theorem list_range_map_sum (f : ℕ → ℚ) (n : ℕ) :
    ((List.range n).map f).sum = ∑ k ∈ Finset.range n, f k := by
  induction n with
  | zero => simp
  | succ n ih =>
      rw [List.range_succ, List.map_append, List.sum_append, Finset.sum_range_succ, ih]
      simp

/-- Go's `%` by 2 is zero exactly on even integers (also for negatives,
where Go's truncating `%` differs from the Euclidean one in value but not
in zeroness). -/
theorem int_tmod_two_eq_zero {n : ℤ} : Int.tmod n 2 = 0 ↔ Even n := by
  constructor
  · intro h
    have h2 := Int.tdiv_add_tmod n 2
    rw [h, add_zero] at h2
    exact ⟨n.tdiv 2, by omega⟩
  · rintro ⟨r, rfl⟩
    have h := Int.mul_tmod_right 2 r
    rwa [two_mul] at h

/-- `getD` through `mapIdx`, inside the length. -/
theorem getD_mapIdx_lt {α β : Type} (l : List α) (f : ℕ → α → β) {i : ℕ}
    (hi : i < l.length) (d : β) (dl : α) :
    (l.mapIdx f).getD i d = f i (l.getD i dl) := by
  rw [List.getD_eq_getElem?_getD, List.getElem?_mapIdx, List.getElem?_eq_getElem hi,
    List.getD_eq_getElem?_getD, List.getElem?_eq_getElem hi]
  rfl

/-- `getD` through `map`, inside the length. -/
theorem getD_map_lt {α β : Type} (l : List α) (g : α → β) {i : ℕ}
    (hi : i < l.length) (d : β) (dl : α) :
    (l.map g).getD i d = g (l.getD i dl) := by
  rw [List.getD_eq_getElem?_getD, List.getElem?_map, List.getElem?_eq_getElem hi,
    List.getD_eq_getElem?_getD, List.getElem?_eq_getElem hi]
  rfl

/-- The modelled backward pass touches no parameter values. -/
theorem accumGrads_map_params (pgIn : List ParamsAndGrads) (delta : List (List ℚ)) :
    (accumGrads pgIn delta).map ParamsAndGrads.params = pgIn.map ParamsAndGrads.params := by
  apply List.ext_getElem?
  intro n
  simp only [accumGrads, List.getElem?_map, List.getElem?_mapIdx]
  cases pgIn[n]? <;> rfl

/-- Pointwise description of the modelled backward pass. -/
theorem accumGrads_getD (pgIn : List ParamsAndGrads) (delta : List (List ℚ)) {i : ℕ}
    (hi : i < pgIn.length) :
    (accumGrads pgIn delta).getD i pgDefault =
      { pgIn.getD i pgDefault with
        grads := (pgIn.getD i pgDefault).grads.mapIdx
          (fun j gj => gj + (delta.getD i []).getD j 0) } :=
  getD_mapIdx_lt pgIn _ hi pgDefault pgDefault

/-- `getD` through the per-buffer update list of `Trainer.Train`. -/
theorem map_pg_getD (F : ℕ → ParamsAndGrads → BufferUpdate)
    (l : List ParamsAndGrads) {i : ℕ} (hi : i < l.length) :
    ((l.mapIdx F).map BufferUpdate.pg).getD i pgDefault = (F i (l.getD i pgDefault)).pg := by
  have hi2 : i < (l.mapIdx F).length := by
    rw [List.length_mapIdx]
    exact hi
  rw [getD_map_lt _ _ hi2 pgDefault buDefault, getD_mapIdx_lt _ _ hi buDefault pgDefault]

/-- C2: a `Train` call whose incremented counter is not a multiple of the
batch size leaves every parameter buffer unchanged — only the gradient
buffers accumulate — while still returning the cost loss; the call at which
the counter reaches a multiple of the batch size gives every parameter
element exactly one `trainStep` update and zeroes the raw gradients. -/
theorem trainer_train_batch_boundary
    (sqrtf : ℚ → ℚ) (t : Trainer) (pgIn : List ParamsAndGrads)
    (delta : List (List ℚ)) (costLoss : ℚ)
    (hB : 0 < t.batchSize)
    (hlen : ∀ pg ∈ pgIn, pg.grads.length = pg.params.length) :
    ((t.k + 1) % t.batchSize ≠ 0 →
      ((train sqrtf t pgIn delta costLoss).2.1.map ParamsAndGrads.params
          = pgIn.map ParamsAndGrads.params) ∧
      (train sqrtf t pgIn delta costLoss).2.2.costLoss = costLoss ∧
      (train sqrtf t pgIn delta costLoss).2.2.loss = costLoss ∧
      (train sqrtf t pgIn delta costLoss).1.k = t.k + 1 ∧
      (∀ i, i < pgIn.length → ∀ j, j < (pgIn.getD i pgDefault).grads.length →
        ((train sqrtf t pgIn delta costLoss).2.1.getD i pgDefault).grads.getD j 0
          = (pgIn.getD i pgDefault).grads.getD j 0 + (delta.getD i []).getD j 0)) ∧
    ((t.k + 1) % t.batchSize = 0 →
      ∀ i, i < pgIn.length → ∀ j, j < (pgIn.getD i pgDefault).params.length →
        (((train sqrtf t pgIn delta costLoss).2.1.getD i pgDefault).params.getD j 0
            = (trainStep sqrtf t (t.k + 1)
                (t.l1Decay * ((accumGrads pgIn delta).getD i pgDefault).l1DecayMul)
                (t.l2Decay * ((accumGrads pgIn delta).getD i pgDefault).l2DecayMul)
                (((accumGrads pgIn delta).getD i pgDefault).params.getD j 0)
                (((accumGrads pgIn delta).getD i pgDefault).grads.getD j 0)
                (((trainEnsureAccum t (accumGrads pgIn delta)).1.getD i []).getD j 0)
                (((trainEnsureAccum t (accumGrads pgIn delta)).2.getD i []).getD j 0)).1) ∧
        ((train sqrtf t pgIn delta costLoss).2.1.getD i pgDefault).grads.getD j 0 = 0) := by
  constructor
  · intro h
    have htr : train sqrtf t pgIn delta costLoss
        = ({ t with k := t.k + 1 }, accumGrads pgIn delta, ⟨costLoss, costLoss, 0, 0⟩) := by
      unfold train
      dsimp only
      rw [if_neg h]
    rw [htr]
    refine ⟨accumGrads_map_params pgIn delta, rfl, rfl, rfl, ?_⟩
    intro i hi j hj
    rw [accumGrads_getD pgIn delta hi]
    exact getD_mapIdx_lt _ _ hj 0 0
  · intro h i hi j hj
    have hp : ((accumGrads pgIn delta).getD i pgDefault).params
        = (pgIn.getD i pgDefault).params := by
      rw [accumGrads_getD pgIn delta hi]
    have hg : ((accumGrads pgIn delta).getD i pgDefault).grads.length
        = (pgIn.getD i pgDefault).grads.length := by
      rw [accumGrads_getD pgIn delta hi]
      exact List.length_mapIdx
    have hmem : pgIn.getD i pgDefault ∈ pgIn := by
      rw [List.getD_eq_getElem?_getD, List.getElem?_eq_getElem hi]
      exact List.getElem_mem hi
    have hlen2 : (pgIn.getD i pgDefault).grads.length
        = (pgIn.getD i pgDefault).params.length := hlen _ hmem
    have hi1 : i < (accumGrads pgIn delta).length := by
      unfold accumGrads
      rw [List.length_mapIdx]
      exact hi
    have hj1 : j < ((accumGrads pgIn delta).getD i pgDefault).params.length := by
      rw [hp]
      exact hj
    have hj2 : j < ((accumGrads pgIn delta).getD i pgDefault).grads.length := by
      rw [hg, hlen2]
      exact hj
    unfold train
    dsimp only
    rw [if_pos h]
    dsimp only
    rw [map_pg_getD _ _ hi1]
    unfold trainUpdateBuffer
    dsimp only
    constructor
    · rw [getD_mapIdx_lt _ _ hj1 0 0]
    · rw [getD_mapIdx_lt _ _ hj2 0 0, if_pos hj1]

/-- C2 witness: the gating behaviour instantiated at a fresh vanilla-SGD
trainer with batch size 2, one 1-element parameter buffer, gradient
increment 2, cost loss 3 (the first call is off-boundary). -/
theorem trainer_train_batch_boundary_witness :
    0 < trainerC2.batchSize ∧
    (∀ pg ∈ pgInC2, pg.grads.length = pg.params.length) ∧
    (((trainerC2.k + 1) % trainerC2.batchSize ≠ 0 →
      ((train id trainerC2 pgInC2 deltaC2 3).2.1.map ParamsAndGrads.params
          = pgInC2.map ParamsAndGrads.params) ∧
      (train id trainerC2 pgInC2 deltaC2 3).2.2.costLoss = 3 ∧
      (train id trainerC2 pgInC2 deltaC2 3).2.2.loss = 3 ∧
      (train id trainerC2 pgInC2 deltaC2 3).1.k = trainerC2.k + 1 ∧
      (∀ i, i < pgInC2.length → ∀ j, j < (pgInC2.getD i pgDefault).grads.length →
        ((train id trainerC2 pgInC2 deltaC2 3).2.1.getD i pgDefault).grads.getD j 0
          = (pgInC2.getD i pgDefault).grads.getD j 0 + (deltaC2.getD i []).getD j 0)) ∧
    ((trainerC2.k + 1) % trainerC2.batchSize = 0 →
      ∀ i, i < pgInC2.length → ∀ j, j < (pgInC2.getD i pgDefault).params.length →
        (((train id trainerC2 pgInC2 deltaC2 3).2.1.getD i pgDefault).params.getD j 0
            = (trainStep id trainerC2 (trainerC2.k + 1)
                (trainerC2.l1Decay * ((accumGrads pgInC2 deltaC2).getD i pgDefault).l1DecayMul)
                (trainerC2.l2Decay * ((accumGrads pgInC2 deltaC2).getD i pgDefault).l2DecayMul)
                (((accumGrads pgInC2 deltaC2).getD i pgDefault).params.getD j 0)
                (((accumGrads pgInC2 deltaC2).getD i pgDefault).grads.getD j 0)
                (((trainEnsureAccum trainerC2 (accumGrads pgInC2 deltaC2)).1.getD i []).getD j 0)
                (((trainEnsureAccum trainerC2 (accumGrads pgInC2 deltaC2)).2.getD i []).getD j 0)).1) ∧
        ((train id trainerC2 pgInC2 deltaC2 3).2.1.getD i pgDefault).grads.getD j 0 = 0)) :=
  ⟨by decide, by decide,
    trainer_train_batch_boundary id trainerC2 pgInC2 deltaC2 3 (by decide) (by decide)⟩

/-- C1: calling `Forward` on a loss layer is claimed to record the input
tensor `v` so that `BackwardLoss` then zeroes and fills `v`'s gradient
buffer.  `SoftmaxLayer.Forward` never assigns `l.inAct`, so on a freshly
constructed softmax layer the recorded input is still nil after a forward
pass, and `BackwardLoss` dereferences that nil pointer (`none`) instead of
overwriting `v`'s gradient buffer. -/
theorem softmax_forward_forgets_input :
    ((softmaxForward id (freshSoftmax 2) volC1).1.inAct = none) ∧
    (softmaxBackwardLoss id (softmaxForward id (freshSoftmax 2) volC1).1 0 = none) :=
  ⟨rfl, rfl⟩

/-- C3 (counterexample): as stated, `BackwardLoss` after
`SoftmaxLayer.Forward` on a fresh 3-class layer does not return
`-log(output_y)` and set the input gradient — it dereferences the never
recorded `inAct` (`none`). -/
theorem softmax_backwardLoss_after_forward_crashes :
    softmaxBackwardLoss id (softmaxForward id (freshSoftmax 3) volC3).1 0 = none :=
  rfl

/-- C3 (amended): `SoftmaxLayer.Forward` outputs
`exp(x_i − max_j x_j) / Σ_k exp(x_k − max_j x_j)` for each class `i` (the
subtracted value is the attained maximum of the inputs), and — provided the
layer's recorded input holds a tensor `x0`, which `Forward` itself fails to
establish — `BackwardLoss` with true class `y` returns `-log(output_y)` and
overwrites `x0`'s gradient buffer with `output_i − 1{i = y}` at every class
`i` and `0` beyond. -/
theorem softmax_forward_backward_formulas
    (expf logf : ℚ → ℚ) (l : SoftmaxLayer) (v x0 : Vol) (y : ℕ)
    (hd : 0 < l.outDepth) (hy : y < l.outDepth) (hrec : l.inAct = some x0) :
    (∀ i < l.outDepth, v.w i ≤ softmaxAmax v.w l.outDepth) ∧
    (∃ j < l.outDepth, softmaxAmax v.w l.outDepth = v.w j) ∧
    (∀ i < l.outDepth,
      (softmaxForward expf l v).2.w i =
        expf (v.w i - softmaxAmax v.w l.outDepth) /
          ∑ k ∈ Finset.range l.outDepth, expf (v.w k - softmaxAmax v.w l.outDepth)) ∧
    (∃ xg, softmaxBackwardLoss logf (softmaxForward expf l v).1 y =
          some (xg, -logf ((softmaxForward expf l v).2.w y)) ∧
        xg.w = x0.w ∧ xg.sx = x0.sx ∧ xg.sy = x0.sy ∧ xg.depth = x0.depth ∧
        (∀ i < l.outDepth,
          xg.dw i = (softmaxForward expf l v).2.w i - (if i = y then 1 else 0)) ∧
        (∀ i, l.outDepth ≤ i → xg.dw i = 0)) := by
  obtain ⟨hbound, hattain⟩ := softmaxAmax_spec v.w l.outDepth hd
  refine ⟨hbound, hattain, ?_, ?_⟩
  · intro i hi
    unfold softmaxForward
    dsimp only
    rw [if_pos hi, list_range_map_sum]
  · have hs1 : (softmaxForward expf l v).1.inAct = some x0 := hrec
    unfold softmaxBackwardLoss
    rw [hs1]
    refine ⟨_, rfl, rfl, rfl, rfl, rfl, ?_, ?_⟩
    · intro i hi
      show (if i < l.outDepth then _ else _) = _
      rw [if_pos hi]
      rfl
    · intro i hi
      show (if i < l.outDepth then _ else _) = 0
      rw [if_neg (by omega)]

/-- C3 witness: the amended formulas instantiated at a 3-class layer with a
recorded input, `expf = logf = id`, inputs `[2, 1, 1]`, true class 0. -/
theorem softmax_forward_backward_formulas_witness :
    0 < softmaxLayerRec3.outDepth ∧ 0 < softmaxLayerRec3.outDepth ∧
    softmaxLayerRec3.inAct = some volIn3 ∧
    ((∀ i < softmaxLayerRec3.outDepth,
        volC3.w i ≤ softmaxAmax volC3.w softmaxLayerRec3.outDepth) ∧
     (∃ j < softmaxLayerRec3.outDepth,
        softmaxAmax volC3.w softmaxLayerRec3.outDepth = volC3.w j) ∧
     (∀ i < softmaxLayerRec3.outDepth,
       (softmaxForward id softmaxLayerRec3 volC3).2.w i =
         id (volC3.w i - softmaxAmax volC3.w softmaxLayerRec3.outDepth) /
           ∑ k ∈ Finset.range softmaxLayerRec3.outDepth,
             id (volC3.w k - softmaxAmax volC3.w softmaxLayerRec3.outDepth)) ∧
     (∃ xg, softmaxBackwardLoss id (softmaxForward id softmaxLayerRec3 volC3).1 0 =
           some (xg, -id ((softmaxForward id softmaxLayerRec3 volC3).2.w 0)) ∧
         xg.w = volIn3.w ∧ xg.sx = volIn3.sx ∧ xg.sy = volIn3.sy ∧ xg.depth = volIn3.depth ∧
         (∀ i < softmaxLayerRec3.outDepth,
           xg.dw i = (softmaxForward id softmaxLayerRec3 volC3).2.w i -
             (if i = 0 then 1 else 0)) ∧
         (∀ i, softmaxLayerRec3.outDepth ≤ i → xg.dw i = 0))) :=
  ⟨by decide, by decide, rfl,
    softmax_forward_backward_formulas id id softmaxLayerRec3 volC3 volIn3 0
      (by decide) (by decide) rfl⟩

/-- Scatter-add described pointwise: folding `pointAdd` over a list leaves,
at index `i`, the initial value plus the sum of the contributions whose
target is `i`. -/
theorem foldl_pointAdd {α : Type} (tgt : α → ℕ) (g : α → ℚ)
    (ts : List α) (f : ℕ → ℚ) (i : ℕ) :
    (ts.foldl (fun dwAcc t => pointAdd dwAcc (tgt t) (g t)) f) i
      = f i + ((ts.map (fun t => if tgt t = i then g t else 0)).sum) := by
  induction ts generalizing f with
  | nil => simp
  | cons t ts ih =>
      rw [List.foldl_cons, ih, List.map_cons, List.sum_cons]
      unfold pointAdd
      by_cases hx : i = tgt t
      · rw [if_pos hx, if_pos hx.symm]
        ring
      · rw [if_neg hx, if_neg (fun hc => hx hc.symm)]
        ring

/-- Summing a mapped `flatMap` is the nested sum. -/
theorem map_sum_flatMap {α β : Type} (l : List α) (h : α → List β) (g : β → ℚ) :
    ((l.flatMap h).map g).sum = (l.map (fun a => ((h a).map g).sum)).sum := by
  induction l with
  | nil => simp
  | cons a l ih => simp [List.map_append, List.sum_append, ih]

/-- Summing over the pooling iteration space is a triple nested sum. -/
theorem sum_triples (D AX AY : ℕ) (F : ℕ × ℕ × ℕ → ℚ) :
    (((List.range D).flatMap (fun d => (List.range AX).flatMap (fun ax =>
        (List.range AY).map (fun ay => (d, ax, ay))))).map F).sum
      = ((List.range D).map (fun d => ((List.range AX).map (fun ax =>
          ((List.range AY).map (fun ay => F (d, ax, ay))).sum)).sum)).sum := by
  rw [map_sum_flatMap]
  refine congrArg List.sum (List.map_congr_left ?_)
  intro d hd
  rw [map_sum_flatMap]
  refine congrArg List.sum (List.map_congr_left ?_)
  intro ax hax
  rw [List.map_map]
  rfl

/-- A non-negative integer's `toNat` determines it. -/
theorem int_toNat_eq_iff {z : ℤ} {n : ℕ} (hz : 0 ≤ z) : z.toNat = n ↔ z = (n : ℤ) := by
  constructor
  · intro h
    rw [← h, Int.toNat_of_nonneg hz]
  · intro h
    rw [h]
    exact Int.toNat_ofNat n

/-- The flat index of a `Vol` is injective on in-range coordinates. -/
theorem Vol.idx_inj (v : Vol) {x1 y1 d1 x2 y2 d2 : ℕ}
    (hx1 : x1 < v.sx) (hy1 : y1 < v.sy) (hd1 : d1 < v.depth)
    (hx2 : x2 < v.sx) (hy2 : y2 < v.sy) (hd2 : d2 < v.depth) :
    v.idx x1 y1 d1 = v.idx x2 y2 d2 ↔ (x1 = x2 ∧ y1 = y2 ∧ d1 = d2) := by
  constructor
  · intro h
    unfold Vol.idx at h
    have hdpos : 0 < v.depth := by omega
    have hsxpos : 0 < v.sx := by omega
    have hdd : d1 = d2 := by
      have h1 := congrArg (fun m => m % v.depth) h
      simpa [Nat.mul_comm, Nat.mul_add_mod, Nat.mod_eq_of_lt hd1, Nat.mod_eq_of_lt hd2]
        using h1
    subst hdd
    have h2 : (v.sx * y1 + x1) * v.depth = (v.sx * y2 + x2) * v.depth := by omega
    have h3 : v.sx * y1 + x1 = v.sx * y2 + x2 := Nat.eq_of_mul_eq_mul_right hdpos h2
    have hxx : x1 = x2 := by
      have h4 := congrArg (fun m => m % v.sx) h3
      simpa [Nat.mul_add_mod, Nat.mod_eq_of_lt hx1, Nat.mod_eq_of_lt hx2] using h4
    subst hxx
    have h5 : v.sx * y1 = v.sx * y2 := by omega
    have hyy : y1 = y2 := by
      rcases Nat.eq_of_mul_eq_mul_left hsxpos h5 with h6
      exact h6
    exact ⟨rfl, hyy, rfl⟩
  · rintro ⟨rfl, rfl, rfl⟩
    rfl

/-- C4: after `PoolLayer.Backward`, the input gradient at each in-range
coordinate `(x, y, d)` is exactly the sum of the output gradients of the
output positions whose recorded switch coordinate is `(x, y)` in that same
depth `d` — and therefore `0` at any coordinate no output position
recorded.  The switch tables are assumed to hold in-range coordinates (as
recorded by a forward pass whose receptive fields intersected the
input). -/
theorem pool_backward_routes_gradients (l : PoolLayer) (v out : Vol) (x y d : ℕ)
    (hx : x < v.sx) (hy : y < v.sy) (hd : d < v.depth)
    (hdep : l.inDepth.toNat ≤ v.depth)
    (hsx : ∀ n < l.switchx.length,
      0 ≤ l.switchx.getD n 0 ∧ (l.switchx.getD n 0).toNat < v.sx)
    (hsy : ∀ n < l.switchy.length,
      0 ≤ l.switchy.getD n 0 ∧ (l.switchy.getD n 0).toNat < v.sy) :
    (poolBackward l v out).dw (v.idx x y d)
      = ((List.range l.inDepth.toNat).map (fun dp =>
          ((List.range l.outSx.toNat).map (fun ax =>
            ((List.range l.outSy.toNat).map (fun ay =>
              if l.switchx.getD (poolSwitchN l dp ax ay) 0 = (x : ℤ) ∧
                 l.switchy.getD (poolSwitchN l dp ax ay) 0 = (y : ℤ) ∧ dp = d
              then out.dw (out.idx ax ay dp) else 0)).sum)).sum)).sum := by
  have hsx' : ∀ n, 0 ≤ l.switchx.getD n 0 ∧ (l.switchx.getD n 0).toNat < v.sx := by
    intro n
    by_cases hn : n < l.switchx.length
    · exact hsx n hn
    · rw [List.getD_eq_getElem?_getD, List.getElem?_eq_none (by omega)]
      exact ⟨le_refl 0, by simpa using by omega⟩
  have hsy' : ∀ n, 0 ≤ l.switchy.getD n 0 ∧ (l.switchy.getD n 0).toNat < v.sy := by
    intro n
    by_cases hn : n < l.switchy.length
    · exact hsy n hn
    · rw [List.getD_eq_getElem?_getD, List.getElem?_eq_none (by omega)]
      exact ⟨le_refl 0, by simpa using by omega⟩
  have hfold := foldl_pointAdd
    (fun t : ℕ × ℕ × ℕ =>
      v.idx (l.switchx.getD (poolSwitchN l t.1 t.2.1 t.2.2) 0).toNat
        (l.switchy.getD (poolSwitchN l t.1 t.2.1 t.2.2) 0).toNat t.1)
    (fun t : ℕ × ℕ × ℕ => out.dw (out.idx t.2.1 t.2.2 t.1))
    (poolTriples l) (fun _ => 0) (v.idx x y d)
  have hstart : (poolBackward l v out).dw (v.idx x y d)
      = ((poolTriples l).map (fun t =>
          if v.idx (l.switchx.getD (poolSwitchN l t.1 t.2.1 t.2.2) 0).toNat
               (l.switchy.getD (poolSwitchN l t.1 t.2.1 t.2.2) 0).toNat t.1 = v.idx x y d
          then out.dw (out.idx t.2.1 t.2.2 t.1) else 0)).sum := by
    rw [zero_add] at hfold
    exact hfold
  rw [hstart]
  unfold poolTriples
  rw [sum_triples]
  refine congrArg List.sum (List.map_congr_left ?_)
  intro dp hdp
  refine congrArg List.sum (List.map_congr_left ?_)
  intro ax hax
  refine congrArg List.sum (List.map_congr_left ?_)
  intro ay hay
  rw [List.mem_range] at hdp hax hay
  have hdp2 : dp < v.depth := by omega
  have hxn := hsx' (poolSwitchN l dp ax ay)
  have hyn := hsy' (poolSwitchN l dp ax ay)
  have hcond :
      (v.idx (l.switchx.getD (poolSwitchN l dp ax ay) 0).toNat
          (l.switchy.getD (poolSwitchN l dp ax ay) 0).toNat dp = v.idx x y d)
        ↔ (l.switchx.getD (poolSwitchN l dp ax ay) 0 = (x : ℤ) ∧
           l.switchy.getD (poolSwitchN l dp ax ay) 0 = (y : ℤ) ∧ dp = d) := by
    rw [Vol.idx_inj v hxn.2 hyn.2 hdp2 hx hy hd,
      int_toNat_eq_iff hxn.1, int_toNat_eq_iff hyn.1]
  exact if_congr hcond rfl rfl

/-- C4 witness: the routing identity instantiated at a 2×2 pooling layer
over a 2×2×1 input whose single output cell recorded switch coordinate
`(1, 0)`, queried at coordinate `(1, 0, 0)`. -/
theorem pool_backward_routes_gradients_witness :
    1 < volInC4.sx ∧ 0 < volInC4.sy ∧ 0 < volInC4.depth ∧
    poolLayerC4.inDepth.toNat ≤ volInC4.depth ∧
    (∀ n < poolLayerC4.switchx.length,
      0 ≤ poolLayerC4.switchx.getD n 0 ∧ (poolLayerC4.switchx.getD n 0).toNat < volInC4.sx) ∧
    (∀ n < poolLayerC4.switchy.length,
      0 ≤ poolLayerC4.switchy.getD n 0 ∧ (poolLayerC4.switchy.getD n 0).toNat < volInC4.sy) ∧
    (poolBackward poolLayerC4 volInC4 volOutC4).dw (volInC4.idx 1 0 0)
      = ((List.range poolLayerC4.inDepth.toNat).map (fun dp =>
          ((List.range poolLayerC4.outSx.toNat).map (fun ax =>
            ((List.range poolLayerC4.outSy.toNat).map (fun ay =>
              if poolLayerC4.switchx.getD (poolSwitchN poolLayerC4 dp ax ay) 0 = (1 : ℤ) ∧
                 poolLayerC4.switchy.getD (poolSwitchN poolLayerC4 dp ax ay) 0 = (0 : ℤ) ∧
                 dp = 0
              then volOutC4.dw (volOutC4.idx ax ay dp) else 0)).sum)).sum)).sum :=
  ⟨by decide, by decide, by decide, by decide, by decide, by decide,
    pool_backward_routes_gradients poolLayerC4 volInC4 volOutC4 1 0 0
      (by decide) (by decide) (by decide) (by decide) (by decide) (by decide)⟩

/-- C5: maxout's `Backward` is claimed to route each output gradient to the
recorded winning member in both spatial paths.  In the 1×1 fast path the
loop runs over the *input* gradient buffer (`for i := range v.Dw`) while
indexing the output gradient buffer and the switch table, which have only
`inDepth/groupSize` entries; with the default group size 2 over a 1×1×2
input the second iteration indexes out of range and the program panics
(`none`) instead of routing the gradient. -/
theorem maxout_backward_fastpath_out_of_range :
    maxoutBackward maxoutSeededC5 = none :=
  rfl

/-- C8: constructing a local-response-normalization layer fails fast
exactly when the window size `n` is even; an odd `n` does not trip the
check. -/
theorem lrn_fromDef_even_window (dd : LayerDef) :
    lrnFromDef dd = none ↔ Even dd.n := by
  unfold lrnFromDef
  dsimp only
  split_ifs with h
  · simpa using int_tmod_two_eq_zero.mp h
  · have hne : ¬ Even dd.n := fun he => h (int_tmod_two_eq_zero.mpr he)
    simp [hne]

/-- C6: a pooling layer built from a definition with stride `T ≥ 1` and
non-negative padded spans computes
`out = floor((S + 2P − F)/T) + 1` in each spatial dimension (Lean's `/` on
`ℤ` is Euclidean division, which is floor division for a positive divisor);
construction performs no validity check, it only trims. -/
theorem pool_fromDef_out_size (dd : LayerDef)
    (hT : 0 < dd.stride)
    (hsy : ¬(dd.sy = 0 ∧ dd.syZero = false))
    (hx : 0 ≤ dd.inSx + 2 * dd.pad - dd.sx)
    (hy : 0 ≤ dd.inSy + 2 * dd.pad - dd.sy) :
    (poolFromDef dd).outSx = (dd.inSx + 2 * dd.pad - dd.sx) / dd.stride + 1 ∧
    (poolFromDef dd).outSy = (dd.inSy + 2 * dd.pad - dd.sy) / dd.stride + 1 := by
  have hstride : ¬(dd.stride = 0 ∧ dd.strideZero = false) := fun hc => by omega
  unfold poolFromDef
  simp only [if_neg hsy, if_neg hstride]
  constructor
  · have h1 : dd.inSx + dd.pad * 2 - dd.sx = dd.inSx + 2 * dd.pad - dd.sx := by ring
    rw [h1, Int.tdiv_eq_ediv hx hT.le]
  · have h1 : dd.inSy + dd.pad * 2 - dd.sy = dd.inSy + 2 * dd.pad - dd.sy := by ring
    rw [h1, Int.tdiv_eq_ediv hy hT.le]

/-- C6 witness: a 7-wide input with a 3-wide filter at stride 2 and no
padding yields output size `(7-3)/2 + 1 = 3`. -/
theorem pool_fromDef_out_size_witness :
    (0 : ℤ) < 2 ∧ ¬((3 : ℤ) = 0 ∧ false = false) ∧
    (0 : ℤ) ≤ 7 + 2 * 0 - 3 ∧ (0 : ℤ) ≤ 7 + 2 * 0 - 3 ∧
    ((poolFromDef { layerDef0 with sx := 3, sy := 3, stride := 2, inSx := 7, inSy := 7 }).outSx
        = (7 + 2 * 0 - 3) / 2 + 1 ∧
     (poolFromDef { layerDef0 with sx := 3, sy := 3, stride := 2, inSx := 7, inSy := 7 }).outSy
        = (7 + 2 * 0 - 3) / 2 + 1) :=
  ⟨by decide, by decide, by decide, by decide,
    pool_fromDef_out_size _ (by decide) (by decide) (by decide) (by decide)⟩

/-- C7: dropout's `Forward` with `isTraining = false` succeeds
deterministically: the random source is untouched (no draws are consumed),
every output element is the corresponding input element multiplied by the
configured drop probability, and a second call on the same input produces
an identical output tensor. -/
theorem dropout_inference_deterministic (l : DropoutLayer) (v : Vol) :
    ∃ l1 out1, dropoutForward l v false = some (l1, out1) ∧
      l1.rng = l.rng ∧
      l1.dropped = l.dropped ∧
      (∀ i < v.size, out1.w i = v.w i * l.dropProb) ∧
      ∃ l2 out2, dropoutForward l1 v false = some (l2, out2) ∧
        out2.w = out1.w ∧ out2.dw = out1.dw ∧
        out2.sx = out1.sx ∧ out2.sy = out1.sy ∧ out2.depth = out1.depth :=
  ⟨_, _, rfl, rfl, rfl, fun i hi => by simp [hi], _, _, rfl, rfl, rfl, rfl, rfl, rfl⟩

/-- C7 witness: inference-mode dropout instantiated at a concrete 1×1×2
layer and input. -/
theorem dropout_inference_deterministic_witness :
    ∃ l1 out1, dropoutForward dropoutLayerC7 volC1 false = some (l1, out1) ∧
      l1.rng = dropoutLayerC7.rng ∧
      l1.dropped = dropoutLayerC7.dropped ∧
      (∀ i < volC1.size, out1.w i = volC1.w i * dropoutLayerC7.dropProb) ∧
      ∃ l2 out2, dropoutForward l1 volC1 false = some (l2, out2) ∧
        out2.w = out1.w ∧ out2.dw = out1.dw ∧
        out2.sx = out1.sx ∧ out2.sy = out1.sy ∧ out2.depth = out1.depth :=
  dropout_inference_deterministic dropoutLayerC7 volC1

/-- C8 witness: the construction check evaluated at window sizes 4 (even,
fails) and 3 (odd, succeeds). -/
theorem lrn_fromDef_even_window_witness :
    (lrnFromDef { layerDef0 with n := 4 } = none ↔ Even ({ layerDef0 with n := 4 } : LayerDef).n) ∧
    (lrnFromDef { layerDef0 with n := 3 } = none ↔ Even ({ layerDef0 with n := 3 } : LayerDef).n) :=
  ⟨lrn_fromDef_even_window _, lrn_fromDef_even_window _⟩

/-- C9 (counterexample): after `UnmarshalJSON` of a 1×1×2 dropout layer
onto the fresh receiver used by `Net.UnmarshalJSON`, the per-element
drop-decision buffer does *not* have length `outSx*outSy*outDepth`: it is
left nil. -/
theorem dropout_unmarshal_dropped_not_rebuilt :
    (dropoutUnmarshal emptyDropoutLayer dropoutDataC9).dropped.length ≠
      dropoutDataC9.outSx * dropoutDataC9.outSy * dropoutDataC9.outDepth := by
  decide

/-- C9 (amended): deserialization re-allocates the pooling layer's switch
tables with length `outSx*outSy*inDepth`, but leaves the dropout layer's
drop-decision buffer untouched — on the fresh receiver used by
`Net.UnmarshalJSON` it stays empty, so a training-mode `Forward` followed
by `Backward` on a deserialized dropout layer indexes outside it. -/
theorem unmarshal_rebuilds_pool_switches_only
    (pl : PoolLayer) (pd : PoolJSONData) (dl : DropoutLayer) (dd : DropoutJSONData)
    (hdl : dl.dropped = []) :
    (poolUnmarshal pl pd).switchx.length = (pd.outSx * pd.outSy * pd.inDepth).toNat ∧
    (poolUnmarshal pl pd).switchy.length = (pd.outSx * pd.outSy * pd.inDepth).toNat ∧
    (dropoutUnmarshal dl dd).dropped.length = 0 := by
  refine ⟨?_, ?_, ?_⟩ <;> simp [poolUnmarshal, dropoutUnmarshal, hdl]

/-- C9 witness: concrete deserializations of a 4×4×3 pooling layer and a
1×1×2 dropout layer. -/
theorem unmarshal_rebuilds_pool_switches_only_witness :
    emptyDropoutLayer.dropped = [] ∧
    ((poolUnmarshal emptyPoolLayer poolDataC9).switchx.length
        = (poolDataC9.outSx * poolDataC9.outSy * poolDataC9.inDepth).toNat ∧
     (poolUnmarshal emptyPoolLayer poolDataC9).switchy.length
        = (poolDataC9.outSx * poolDataC9.outSy * poolDataC9.inDepth).toNat ∧
     (dropoutUnmarshal emptyDropoutLayer dropoutDataC9).dropped.length = 0) :=
  ⟨rfl, unmarshal_rebuilds_pool_switches_only emptyPoolLayer poolDataC9
    emptyDropoutLayer dropoutDataC9 rfl⟩

end Convnet
